import Mathlib

/-!
Verification development for the Genesis scene-orchestration core:
`genesis/engine/scene.py` and `genesis/vis/rasterizer_context.py`.

The Python code is shallowly embedded in Lean: pure computations become
Lean functions, stateful methods become explicit state-passing functions,
and methods that can raise become functions into `Except`.  Numeric array
payloads carried by solvers and the renderer are opaque to the
orchestration logic verified here, so they are modelled as `List Int`
values; real-valued offsets are modelled over `Rat` (the claims verified
about them concern the arithmetic structure of the computation, not
floating-point rounding).
-/

namespace Genesis

/-- Error taxonomy of the spec (section 7).  The Python source raises a
single generic exception type via `gs.raise_exception`; the spec assigns
each raise site one of these categories, and the embedding tags every
raise site with the category the spec gives it.  `genericErr` is used for
raise sites the spec does not classify. -/
inductive GsError where
  | invalidState : String → GsError
  | config : String → GsError
  | range : String → GsError
  | duplicateName : String → GsError
  | genericErr : String → GsError
  deriving DecidableEq, Repr

/-- Python-dict style association lookup: first binding for the key wins
(a Python dict has unique keys, so the first binding is the only one). -/
def alookup {α β : Type} [DecidableEq α] (k : α) : List (α × β) → Option β
  | [] => none
  | p :: ps => if p.1 = k then some p.2 else alookup k ps

/-- Python-dict style update: overwrite the binding if the key is present,
otherwise append a new binding (Python dicts preserve insertion order). -/
def aupdate {α β : Type} [DecidableEq α] (k : α) (v : β) : List (α × β) → List (α × β)
  | [] => [(k, v)]
  | p :: ps => if p.1 = k then (k, v) :: ps else p :: aupdate k v ps

/-! ### Environment batching layout — `Scene._parallelize` (scene.py 659-704) -/

/-- Ceiling of the square root, mirroring `np.ceil(np.sqrt(B)).astype(int)`
(exact for every batch size at which the float square root is faithful). -/
def ceilSqrt (n : Nat) : Nat :=
  if Nat.sqrt n * Nat.sqrt n = n then Nat.sqrt n else Nat.sqrt n + 1

/-- One raw grid offset: `offset_x = (i // n_envs_per_row) * spacing[0]`,
`offset_y = (i % n_envs_per_row) * spacing[1]`, `offset_z = 0`
(scene.py 680-682). -/
def rawOffset (nper : Nat) (sx sy : Rat) (i : Nat) : Rat × Rat × Rat :=
  (((i / nper : Nat) : Rat) * sx, ((i % nper : Nat) : Rat) * sy, 0)

/-- Maximum of a list of rationals, `np.max` style (`0` on the empty list,
which `_parallelize` never hits since `B >= 1`). -/
def listMax : List Rat → Rat
  | [] => 0
  | x :: xs => xs.foldl max x

/-- Minimum of a list of rationals, `np.min` style. -/
def listMin : List Rat → Rat
  | [] => 0
  | x :: xs => xs.foldl min x

/-- Result of the batching-layout computation. -/
structure ParallelizeOut where
  B : Nat
  n_envs_per_row : Nat
  envs_offset : List (Rat × Rat × Rat)
  deriving DecidableEq, Repr

/-- The raw grid offsets for all `B` environments (scene.py 680-683). -/
def rawOffsets (B nper : Nat) (sx sy : Rat) : List (Rat × Rat × Rat) :=
  (List.range B).map (rawOffset nper sx sy)

/-- The per-axis recentering shift
`center = (np.max(envs_offset, axis=0) + np.min(envs_offset, axis=0)) / 2`
(scene.py 687). -/
def centerShift (raw : List (Rat × Rat × Rat)) : Rat × Rat × Rat :=
  ((listMax (raw.map (fun p => p.1)) + listMin (raw.map (fun p => p.1))) / 2,
   (listMax (raw.map (fun p => p.2.1)) + listMin (raw.map (fun p => p.2.1))) / 2,
   (listMax (raw.map (fun p => p.2.2)) + listMin (raw.map (fun p => p.2.2))) / 2)

/-- The final offset grid: the raw grid, recentered when requested
(`self.envs_offset -= center`, scene.py 686-688). -/
def envOffsets (B nper : Nat) (sx sy : Rat) (center : Bool) : List (Rat × Rat × Rat) :=
  let raw := rawOffsets B nper sx sy
  if center then
    let c := centerShift raw
    raw.map (fun p => (p.1 - c.1, p.2.1 - c.2.1, p.2.2 - c.2.2))
  else raw

/-- Embeds `Scene._parallelize` (scene.py 659-704): `B = max(1, n_envs)`;
`n_envs_per_row` defaults to `ceil(sqrt(B))`; rejects `env_spacing` that is
not a 2-element sequence; computes the grid offsets and optionally recenters
them so that the per-axis extremes straddle the origin. -/
def scene_parallelize (n_envs : Nat) (env_spacing : List Rat)
    (n_envs_per_row : Option Nat) (center_envs_at_origin : Bool) :
    Except GsError ParallelizeOut :=
  let B := max 1 n_envs
  let nper := n_envs_per_row.getD (ceilSqrt B)
  if env_spacing.length = 2 then
    .ok { B := B, n_envs_per_row := nper,
          envs_offset := envOffsets B nper (env_spacing.getD 0 0) (env_spacing.getD 1 0)
            center_envs_at_origin }
  else
    .error (.config "env_spacing should be a tuple of length 2.")

/-! ### Segmentation table — `RasterizerContext.seg_key_to_idxc` (rasterizer_context.py 48-50, 893-896) -/

/-- A segmentation key: the entity index (or a link/geom refinement, which
the claims quantify over abstractly).  The background key is `-1`. -/
abbrev SegKey := Int

/-- The two segmentation dictionaries of the context. -/
structure SegMaps where
  seg_key_map : List (SegKey × Nat)
  seg_idxc_map : List (Nat × SegKey)
  deriving DecidableEq, Repr

/-- Initial segmentation state from `RasterizerContext.__init__`:
`seg_idxc_map = {0: -1}` and `seg_key_map = {-1: 0}`. -/
def SegMaps.init : SegMaps :=
  { seg_key_map := [(-1, 0)], seg_idxc_map := [(0, -1)] }

/-- Embeds `seg_key_to_idxc` (rasterizer_context.py 893-896):
`seg_idxc = seg_key_map.setdefault(seg_key, len(seg_key_map))`, then
`seg_idxc_map[seg_idxc] = seg_key`. -/
def SegMaps.seg_key_to_idxc (m : SegMaps) (k : SegKey) : Nat × SegMaps :=
  match alookup k m.seg_key_map with
  | some v => (v, { m with seg_idxc_map := aupdate v k m.seg_idxc_map })
  | none =>
    let v := m.seg_key_map.length
    (v, { seg_key_map := m.seg_key_map ++ [(k, v)],
          seg_idxc_map := aupdate v k m.seg_idxc_map })

/-- Runs `seg_key_to_idxc` over a whole sequence of keys (this is what the
`add_rigid_node` / `add_static_node` / `add_dynamic_node` build path does,
one call per registered node). -/
def SegMaps.assignAll (m : SegMaps) (ks : List SegKey) : SegMaps :=
  ks.foldl (fun acc k => (acc.seg_key_to_idxc k).2) m

/-- Key list tagged with consecutive ids starting at `n` (the shape that
`seg_key_map` grows by when it sees a run of fresh keys). -/
def tagFrom (n : Nat) : List SegKey → List (SegKey × Nat)
  | [] => []
  | k :: ks => (k, n) :: tagFrom (n + 1) ks

/-! ### RenderMirror — `RasterizerContext` (rasterizer_context.py)

The renderer backend (pyrender) and the solvers are external collaborators:
nodes are modelled by opaque ids, buffer payloads by opaque numeric lists,
and the numeric content each per-family update writes is a parameter of
`update` (it is read from out-of-scope solver state in the source). -/

/-- Renderer node handle (opaque). -/
abbrev NodeId := Nat

/-- Renderer buffer-slot id, as returned by `self._scene.get_buffer_id`. -/
abbrev BufKey := Nat

/-- Opaque numeric payload (a pose/vertex array in the source). -/
abbrev Payload := List Int

/-- Phase tags of the resync pass, used as an observability trace: each
embedded operation of `update` appends the tag of the source call it
models, so the order of the source statements is visible in the state. -/
inductive Phase where
  | clearDynamicNodes
  | updateVisualStates
  | invalidateBounds
  | clearBuffer
  | updLinkFrame
  | updTool
  | updRigid
  | updContact
  | updAvatar
  | updMpm
  | updSph
  | updPbd
  | updFem
  deriving DecidableEq, Repr

/-- Observable effect of one per-family update (`update_link_frame` ...
`update_fem`, rasterizer_context.py 252-719) given the current solver
state: buffer-update entries written for existing static/rigid nodes, and
freshly created dynamic nodes (`add_dynamic_node`).  The numeric content
comes from solver state that is out of scope, so it is an input here. -/
structure FamEffect where
  entries : List (BufKey × Payload)
  newDynamic : List NodeId
  deriving DecidableEq, Repr

/-- The nine per-family updates of one resync, in source order
(rasterizer_context.py 854-862). -/
structure FamilyUpdates where
  link_frame : FamEffect
  tool : FamEffect
  rigid : FamEffect
  contact : FamEffect
  avatar : FamEffect
  mpm : FamEffect
  sph : FamEffect
  pbd : FamEffect
  fem : FamEffect
  deriving DecidableEq, Repr

/-- State of `RasterizerContext` relevant to the verified claims.
`t` is `self._t` (last synchronized time index), `scene_nodes` the node set
of the pyrender scene, `bounds` its cached `_bounds`, `buffer` the
buffer-update map `self.buffer`, and `visual_updates` counts the calls to
`visualizer.update_visual_states` (an external collaborator). -/
structure RasterizerContext where
  t : Int
  scene_nodes : List NodeId
  bounds : Option Payload
  buffer : List (BufKey × Payload)
  dynamic_nodes : List NodeId
  external_nodes : List (String × NodeId)
  seg_node_map : List (NodeId × Payload)
  visual_updates : Nat
  trace : List Phase
  deriving DecidableEq, Repr

/-- Embeds `RasterizerContext.reset` (rasterizer_context.py 125-126):
`self._t = -1`. -/
def RasterizerContext.reset (c : RasterizerContext) : RasterizerContext :=
  { c with t := -1 }

/-- Loop body of `clear_dynamic_nodes`: `remove_node_seg` pops the node
from `seg_node_map` and `remove_node` removes it from the pyrender
scene. -/
def destroyDynamicNode (acc : RasterizerContext) (n : NodeId) : RasterizerContext :=
  { acc with
    seg_node_map := acc.seg_node_map.filter (fun p => p.1 ≠ n),
    scene_nodes := acc.scene_nodes.erase n }

/-- Embeds `clear_dynamic_nodes` (rasterizer_context.py 175-179): destroy
every dynamic node of the previous frame, then empty the list. -/
def RasterizerContext.clear_dynamic_nodes (c : RasterizerContext) : RasterizerContext :=
  let c1 := c.dynamic_nodes.foldl destroyDynamicNode c
  { c1 with dynamic_nodes := [], trace := c1.trace ++ [Phase.clearDynamicNodes] }

/-- Applies one per-family update: append its buffer-update entries to the
accumulated buffer map and register its freshly created dynamic nodes
(`add_dynamic_node` adds the node to the pyrender scene and appends it to
`dynamic_nodes`). -/
def RasterizerContext.applyFam (c : RasterizerContext) (eff : FamEffect) (tag : Phase) :
    RasterizerContext :=
  { c with
    buffer := c.buffer ++ eff.entries,
    scene_nodes := c.scene_nodes ++ eff.newDynamic,
    dynamic_nodes := c.dynamic_nodes ++ eff.newDynamic,
    trace := c.trace ++ [tag] }

/-- Embeds `RasterizerContext.update` (rasterizer_context.py 837-862):
early return when `self._t >= self.scene._t`; otherwise set
`self._t = self.scene._t`, clear the dynamic nodes, recompute the
visualization-only derived state, invalidate the cached scene bounds,
clear the buffer-update map, and run the nine per-family updates in source
order, all accumulating into `self.buffer`. -/
def RasterizerContext.update (c : RasterizerContext) (fams : FamilyUpdates)
    (scene_t : Int) : RasterizerContext :=
  if c.t ≥ scene_t then c
  else
    let c0 := { c with t := scene_t }
    let c1 := c0.clear_dynamic_nodes
    let c2 := { c1 with
      visual_updates := c1.visual_updates + 1,
      trace := c1.trace ++ [Phase.updateVisualStates] }
    let c3 := { c2 with bounds := none, trace := c2.trace ++ [Phase.invalidateBounds] }
    let c4 := { c3 with buffer := [], trace := c3.trace ++ [Phase.clearBuffer] }
    ((((((((c4.applyFam fams.link_frame .updLinkFrame).applyFam
        fams.tool .updTool).applyFam
        fams.rigid .updRigid).applyFam
        fams.contact .updContact).applyFam
        fams.avatar .updAvatar).applyFam
        fams.mpm .updMpm).applyFam
        fams.sph .updSph).applyFam
        fams.pbd .updPbd).applyFam
        fams.fem .updFem

/-- The phase tags of one full resync pass, in the order `update` runs
them. -/
def resyncTrace : List Phase :=
  [Phase.clearDynamicNodes, Phase.updateVisualStates, Phase.invalidateBounds,
   Phase.clearBuffer, Phase.updLinkFrame, Phase.updTool, Phase.updRigid,
   Phase.updContact, Phase.updAvatar, Phase.updMpm, Phase.updSph,
   Phase.updPbd, Phase.updFem]

/-- Embeds `add_external_node` (rasterizer_context.py 164-173): reject a
node with no `name` attribute or an empty name, reject a name already in
the registry, otherwise add the node to the pyrender scene and register
it by name. -/
def RasterizerContext.add_external_node (c : RasterizerContext)
    (name : Option String) (node : NodeId) : Except GsError RasterizerContext :=
  match name with
  | none => .error (.config "Node must have a valid name attribute.")
  | some s =>
    if s = "" then
      .error (.config "Node must have a valid name attribute.")
    else if (alookup s c.external_nodes).isSome then
      .error (.duplicateName ("A node with this name already exists: " ++ s))
    else
      .ok { c with
        scene_nodes := c.scene_nodes ++ [node],
        external_nodes := c.external_nodes ++ [(s, node)] }

/-- Embeds `clear_external_node` (rasterizer_context.py 181-184): if the
node name is registered, remove the node and drop the registry entry;
otherwise do nothing. -/
def RasterizerContext.clear_external_node (c : RasterizerContext) (s : String) :
    RasterizerContext :=
  match alookup s c.external_nodes with
  | some n =>
    { c with
      scene_nodes := c.scene_nodes.erase n,
      external_nodes := c.external_nodes.filter (fun p => p.1 ≠ s) }
  | none => c

/-! ### Environment index sanitation — `Scene._sanitize_envs_idx` (scene.py 1143-1172) -/

/-- The shapes an `envs_idx` selector can take: `None`, a contiguous
slice, a single integer, or an explicit index array (with the shape the
tensor conversion sees, so that the 1-dimensionality check is visible). -/
inductive EnvsIdxArg where
  | noneArg
  | sliceArg (start stop : Int)
  | intArg (i : Int)
  | arrArg (shape : List Nat) (data : List Int)
  deriving DecidableEq, Repr

/-- Normalizes one Python slice endpoint against a list of length `n`
(negative endpoints count from the end; endpoints are clamped to
`[0, n]`). -/
def pyNorm (n : Nat) (x : Int) : Nat :=
  (max (if x < 0 then (n : Int) + x else x) 0).toNat.min n

/-- Python slice `l[a:b]` (step 1). -/
def pySlice (l : List Int) (a b : Int) : List Int :=
  (l.drop (pyNorm l.length a)).take (pyNorm l.length b - pyNorm l.length a)

/-- Embeds `Scene._sanitize_envs_idx` (scene.py 1143-1172).  `None` maps to
`self._envs_idx = torch.arange(B)`; any other selector is rejected when
`n_envs == 0`; a slice or single integer indexes into `self._envs_idx`;
an explicit array is returned raw when `unsafe=True` (`unchecked` here,
since `unsafe` is a Lean keyword), else promoted by `atleast_1d`, checked
to be 1-dimensional, and bound-checked against `[0, n_envs)`. -/
def sanitize_envs_idx (n_envs : Nat) (arg : EnvsIdxArg) (unchecked : Bool) :
    Except GsError (List Int) :=
  let B := max 1 n_envs
  let envsAll := (List.range B).map Int.ofNat
  match arg with
  | .noneArg => .ok envsAll
  | .sliceArg st sp =>
    if n_envs = 0 then
      .error (.config "envs_idx is not supported for non-parallelized scene.")
    else .ok (pySlice envsAll st sp)
  | .intArg i =>
    if n_envs = 0 then
      .error (.config "envs_idx is not supported for non-parallelized scene.")
    else .ok (pySlice envsAll i (i + 1))
  | .arrArg shape data =>
    if n_envs = 0 then
      .error (.config "envs_idx is not supported for non-parallelized scene.")
    else if unchecked then .ok data
    else
      let shape1 := if shape.isEmpty then [1] else shape
      if shape1.length ≠ 1 then
        .error (.range "Expecting a 1D tensor for envs_idx.")
      else if data.any (fun x => x < 0 || (n_envs : Int) ≤ x) then
        .error (.range "envs_idx exceeds valid range.")
      else .ok data

/-! ### Checkpointing — `save_checkpoint` / `load_checkpoint` (scene.py 1076-1137)

Each Taichi field is an opaque named numeric array.  The per-solver
`dump_ckpt_to_numpy` / `load_ckpt_from_numpy` routines are external
collaborators (spec section 6 solver contract); they are modelled as the
same name-keyed dump/write-back policy the Scene itself implements. -/

/-- Modelled from the spec: one active solver's checkpoint interface
(`dump_ckpt_to_numpy` returning a flat name-to-array mapping, and
`load_ckpt_from_numpy` writing back same-named buffers), which lives in
solver code outside this repository excerpt. -/
structure SolverCk where
  buffers : List (String × Payload)
  deriving DecidableEq, Repr

/-- Checkpoint-relevant state of a Scene: the step counter `t`, the
Taichi fields owned directly by the Scene (keyed `"Scene.attr"`), and the
active solvers. -/
structure SceneCk where
  t : Nat
  fields : List (String × Payload)
  solvers : List SolverCk
  deriving DecidableEq, Repr

/-- Embeds `Scene.dump_ckpt_to_numpy` (scene.py 1076-1095): the Scene's own
fields followed by every active solver's dump, as one flat mapping. -/
def SceneCk.dump_ckpt_to_numpy (s : SceneCk) : List (String × Payload) :=
  s.fields ++ (s.solvers.map SolverCk.buffers).flatten

/-- The single serialized record `save_checkpoint` pickles (scene.py
1106-1110): wall-clock timestamp, step index, flat array mapping.
`step_index` is optional so that `load_checkpoint`'s
`state.get("step_index", self._t)` default is visible. -/
structure Checkpoint where
  timestamp : Int
  step_index : Option Nat
  arrays : List (String × Payload)
  deriving DecidableEq, Repr

/-- Embeds `Scene.save_checkpoint` (scene.py 1097-1112), minus the pickle
encoding and file write which are I/O plumbing. -/
def SceneCk.save_checkpoint (s : SceneCk) (timestamp : Int) : Checkpoint :=
  { timestamp := timestamp, step_index := some s.t, arrays := s.dump_ckpt_to_numpy }

/-- Write-back policy for one named buffer: take the checkpoint's array
when the key is present, keep the current contents otherwise. -/
def loadArray (arrays : List (String × Payload)) (p : String × Payload) :
    String × Payload :=
  match alookup p.1 arrays with
  | some w => (p.1, w)
  | none => p

/-- Modelled from the spec: one solver's `load_ckpt_from_numpy`, writing
back same-named buffers when present in the mapping. -/
def SolverCk.load (sv : SolverCk) (arrays : List (String × Payload)) : SolverCk :=
  { buffers := sv.buffers.map (loadArray arrays) }

/-- Embeds `Scene.load_checkpoint` (scene.py 1114-1137): write each
present same-named array back into the Scene's fields and each solver's
buffers, ignore unknown keys, and restore `t` from the stored step index
(keeping the current `t` when the record has none). -/
def SceneCk.load_checkpoint (s : SceneCk) (ck : Checkpoint) : SceneCk :=
  { t := ck.step_index.getD s.t,
    fields := s.fields.map (loadArray ck.arrays),
    solvers := s.solvers.map (fun sv => sv.load ck.arrays) }

/-! ### Scene state machine (scene.py) -/

/-- Opaque numeric snapshot of one batched environment. -/
abbrev EnvState := List Int

/-- A Simulator snapshot: one `EnvState` per environment (`B` entries). -/
abbrev SimState := List EnvState

/-- The forward/reverse stepping routines of the Simulator and its
solvers, external collaborators behind the spec's solver contract
(`sim.step`, `sim.collect_output_grads`, `sim._step_grad`). -/
structure SolverOps where
  sim_step : SimState → SimState
  sim_collect_output_grads : SimState → SimState
  sim_step_grad : SimState → SimState

/-- Modelled from the spec: an Emitter's internal replay cursor
(`_next_particle`, per the source comment at scene.py 740 and the spec's
"emitters' internal replay cursors"); `Emitter.reset` sets it to 0. -/
structure EmitterM where
  max_particles : Nat
  next_particle : Nat
  deriving DecidableEq, Repr

/-- Emitter reset: rewind the replay cursor. -/
def EmitterM.reset (e : EmitterM) : EmitterM :=
  { e with next_particle := 0 }

/-- The material families `add_emitter` dispatches on. -/
inductive MaterialM where
  | mpmBase
  | sphBase
  | pbdParticle
  | pbdLiquid
  | rigid
  | femBase
  | otherMat
  deriving DecidableEq, Repr

/-- The materials `add_emitter` accepts (scene.py 569-574). -/
def MaterialM.emitterSupported : MaterialM → Bool
  | .mpmBase => true
  | .sphBase => true
  | .pbdParticle => true
  | .pbdLiquid => true
  | _ => false

/-- State of a `Scene` relevant to the verified claims: the time counter,
the lifecycle flags, the batching configuration, the Simulator snapshot,
the captured `init_state`, the render mirror, the emitters, and the count
of entities routed to the Simulator. -/
structure SceneM where
  t : Nat
  is_built : Bool
  forward_ready : Bool
  backward_ready : Bool
  requires_grad : Bool
  n_envs : Nat
  sim : SimState
  init_state : SimState
  ctx : RasterizerContext
  emitters : List EmitterM
  n_entities : Nat
  deriving DecidableEq, Repr

/-- The true batch size `B = max(1, n_envs)` (scene.py 671). -/
def SceneM.B (s : SceneM) : Nat := max 1 s.n_envs

/-- Restores the environments listed in `sel` from `snap`, leaving the
others untouched (`i` is the index of the head of `cur`). -/
def restoreEnvs (snap : SimState) (sel : List Nat) : Nat → SimState → SimState
  | _, [] => []
  | i, v :: rest =>
    (if i ∈ sel then snap.getD i v else v) :: restoreEnvs snap sel (i + 1) rest

/-- Modelled from the spec: `Simulator.reset(state, envs_idx)` restores
the Simulator to the snapshot restricted to `envs_idx`, or to all
environments when `envs_idx` is omitted (spec sections 4.1 and 4.3; the
Simulator class is outside this repository excerpt). -/
def simReset (cur snap : SimState) : Option (List Nat) → SimState
  | none => snap
  | some sel => restoreEnvs snap sel 0 cur

/-- Embeds `Scene._reset` (scene.py 722-742).  When built: install the
provided state as the new `init_state` (or reapply the existing one) and
restore the Simulator to it restricted to `envs_idx`; when unbuilt:
capture the current Simulator state as `init_state`.  Then zero the time
counter, raise both ready flags (`_reset_grad`), reset the render
mirror's staleness marker (`visualizer.reset`, which performs
`context.reset`, rasterizer_context.py 125-126), and rewind every
emitter's replay cursor. -/
def SceneM.resetImpl (s : SceneM) (state : Option SimState)
    (envs_idx : Option (List Nat)) : SceneM :=
  let instSt := state.getD s.init_state
  let init' := if s.is_built then instSt else s.sim
  let sim' := if s.is_built then simReset s.sim instSt envs_idx else s.sim
  { s with
    init_state := init',
    sim := sim',
    t := 0,
    forward_ready := true,
    backward_ready := true,
    ctx := s.ctx.reset,
    emitters := s.emitters.map EmitterM.reset }

/-- Embeds the public `Scene.reset` (scene.py 706-720), whose
`@gs.assert_built` decorator rejects the call on an unbuilt scene. -/
def SceneM.reset (s : SceneM) (state : Option SimState)
    (envs_idx : Option (List Nat)) : Except GsError SceneM :=
  if s.is_built then .ok (s.resetImpl state envs_idx)
  else .error (.invalidState "Scene is not built yet.")

/-- Embeds `Scene.step` (scene.py 762-778): reject when unbuilt
(`@gs.assert_built`) or when `forward_ready` has been consumed by a
backward pass; otherwise advance the Simulator one tick, increment `t`,
and (when `update_visualizer`) ask the render mirror to resynchronize
non-forced (staleness-checked `context.update`; the Visualizer wrapper is
outside this excerpt, spec section 4.1). -/
def SceneM.step (ops : SolverOps) (fams : FamilyUpdates) (s : SceneM)
    (update_visualizer : Bool) : Except GsError SceneM :=
  if ¬ s.is_built then .error (.invalidState "Scene is not built yet.")
  else if ¬ s.forward_ready then
    .error (.invalidState "Forward simulation not allowed after backward pass. Please reset scene state.")
  else
    let s1 := { s with sim := ops.sim_step s.sim, t := s.t + 1 }
    .ok (if update_visualizer then
          { s1 with ctx := s1.ctx.update fams (Int.ofNat s1.t) }
        else s1)

/-- The reverse-accumulation loop body `_step_grad` (scene.py 780-783)
iterated `n` times: `collect_output_grads` then `_step_grad` on the
Simulator, decrementing `t` each time; `backward` runs it until `t == 0`. -/
def stepGradIter (ops : SolverOps) : Nat → SimState → SimState
  | 0, st => st
  | n + 1, st => stepGradIter ops n (ops.sim_step_grad (ops.sim_collect_output_grads st))

/-- Embeds `Scene._backward` (scene.py 1060-1074): reject a second call
without an intervening reset; otherwise run the reverse-step loop while
`t > 0`, then lower both ready flags. -/
def SceneM.backward (ops : SolverOps) (s : SceneM) : Except GsError SceneM :=
  if ¬ s.backward_ready then
    .error (.invalidState "Multiple backward calls not allowed.")
  else
    .ok { s with
      sim := stepGradIter ops s.t s.sim,
      t := 0,
      backward_ready := false,
      forward_ready := false }

/-- Embeds `Scene.add_emitter` (scene.py 541-587): rejected on a built
scene by `@gs.assert_unbuilt`, rejected outright in differentiable mode,
rejected for unsupported materials; otherwise creates the emitter, routes
a particle entity to the Simulator via `add_entity`, and registers the
emitter. -/
def SceneM.add_emitter (s : SceneM) (material : MaterialM) (max_particles : Nat) :
    Except GsError (SceneM × EmitterM) :=
  if s.is_built then
    .error (.invalidState "Scene is already built.")
  else if s.requires_grad then
    .error (.genericErr "Emitter is not supported in differentiable mode.")
  else if ¬ material.emitterSupported then
    .error (.genericErr "Non-supported material for emitter.")
  else
    let emitter : EmitterM := { max_particles := max_particles, next_particle := 0 }
    .ok ({ s with
            n_entities := s.n_entities + 1,
            emitters := s.emitters ++ [emitter] },
         emitter)

/-! ### Concrete instances used by the witness theorems -/

/-- A family update effect with no payload. -/
def emptyFamEffect : FamEffect := { entries := [], newDynamic := [] }

/-- A sample set of family effects: the rigid family writes one pose
buffer entry, the MPM family reconstructs one dynamic node. -/
def sampleFams : FamilyUpdates :=
  { link_frame := emptyFamEffect
    tool := emptyFamEffect
    rigid := { entries := [(7, [1, 2, 3])], newDynamic := [] }
    contact := emptyFamEffect
    avatar := emptyFamEffect
    mpm := { entries := [], newDynamic := [42] }
    sph := emptyFamEffect
    pbd := emptyFamEffect
    fem := emptyFamEffect }

/-- A freshly reset render context (`_t = -1`, empty registries). -/
def freshCtx : RasterizerContext :=
  { t := -1, scene_nodes := [], bounds := none, buffer := [], dynamic_nodes := [],
    external_nodes := [], seg_node_map := [], visual_updates := 0, trace := [] }

/-- A render context with one registered external node named `a`. -/
def extCtx : RasterizerContext :=
  { freshCtx with external_nodes := [("a", 1)], scene_nodes := [1] }

/-- Trivial solver stepping routines (the claims hold for every
collaborator, so any concrete instance witnesses them). -/
def idSolverOps : SolverOps :=
  { sim_step := id, sim_collect_output_grads := id, sim_step_grad := id }

/-- A small built scene with two environments, used by witnesses. -/
def sampleScene : SceneM :=
  { t := 2, is_built := true, forward_ready := true, backward_ready := true,
    requires_grad := false, n_envs := 2,
    sim := [[5, 6], [7, 8]], init_state := [[0, 0], [1, 1]],
    ctx := freshCtx, emitters := [{ max_particles := 10, next_particle := 4 }],
    n_entities := 1 }

/-- A checkpoint-view scene after three steps: one Scene-owned field and
one active solver with one buffer. -/
def ckScene : SceneCk :=
  { t := 3, fields := [("Scene.a", [1, 2])],
    solvers := [{ buffers := [("RigidSolver.x", [9])] }] }

/-- An identically configured, freshly reset checkpoint-view scene (same
buffer names, different contents). -/
def ckSceneFresh : SceneCk :=
  { t := 0, fields := [("Scene.a", [0, 0])],
    solvers := [{ buffers := [("RigidSolver.x", [0])] }] }

/-! ## Helper lemmas -/

theorem alookup_append {α β : Type} [DecidableEq α] (k : α) (a b : List (α × β)) :
    alookup k (a ++ b) = (alookup k a).orElse (fun _ => alookup k b) := by
  induction a with
  | nil => simp [alookup]
  | cons p ps ih =>
    by_cases h : p.1 = k <;> simp [alookup, h, ih]

theorem alookup_mem_nodup {α β : Type} [DecidableEq α] (l : List (α × β))
    (p : α × β) (hnd : (l.map Prod.fst).Nodup) (hm : p ∈ l) :
    alookup p.1 l = some p.2 := by
  induction l with
  | nil => cases hm
  | cons q qs ih =>
    have hnd' : q.1 ∉ qs.map Prod.fst ∧ (qs.map Prod.fst).Nodup := by
      rw [List.map_cons, List.nodup_cons] at hnd
      exact hnd
    rcases List.mem_cons.mp hm with rfl | hmem
    · simp [alookup]
    · have hne : q.1 ≠ p.1 := by
        intro he
        apply hnd'.1
        rw [he]
        exact List.mem_map.mpr ⟨p, hmem, rfl⟩
      simp only [alookup, if_neg hne]
      exact ih hnd'.2 hmem

theorem aupdate_alookup_ne {α β : Type} [DecidableEq α] (k k' : α) (v : β)
    (l : List (α × β)) (h : k' ≠ k) : alookup k' (aupdate k v l) = alookup k' l := by
  have hkk : ¬ (k = k') := fun he => h he.symm
  induction l with
  | nil => simp [aupdate, alookup, hkk]
  | cons p ps ih =>
    by_cases hp : p.1 = k
    · have hpk' : ¬ (p.1 = k') := by
        rw [hp]
        exact hkk
      simp [aupdate, alookup, hp, hkk, hpk']
    · by_cases hk' : p.1 = k'
      · simp [aupdate, alookup, hp, hk', hkk, h]
      · simp [aupdate, alookup, hp, hk', ih]

/-- The destroy loop of `clear_dynamic_nodes` touches only `seg_node_map`
and `scene_nodes`. -/
theorem destroyFold_preserve (l : List NodeId) (c : RasterizerContext) :
    (l.foldl destroyDynamicNode c).t = c.t ∧
    (l.foldl destroyDynamicNode c).bounds = c.bounds ∧
    (l.foldl destroyDynamicNode c).buffer = c.buffer ∧
    (l.foldl destroyDynamicNode c).dynamic_nodes = c.dynamic_nodes ∧
    (l.foldl destroyDynamicNode c).external_nodes = c.external_nodes ∧
    (l.foldl destroyDynamicNode c).visual_updates = c.visual_updates ∧
    (l.foldl destroyDynamicNode c).trace = c.trace := by
  induction l generalizing c with
  | nil => exact ⟨rfl, rfl, rfl, rfl, rfl, rfl, rfl⟩
  | cons n ns ih => simpa [destroyDynamicNode] using ih (destroyDynamicNode c n)

/-- Characterization of the resync pass of `update` when the stored time
index is stale (shared by the staleness and phase-order claims). -/
theorem update_resync_char (c : RasterizerContext) (fams : FamilyUpdates)
    (st : Int) (h : c.t < st) :
    (c.update fams st).t = st ∧
    (c.update fams st).buffer =
      fams.link_frame.entries ++ fams.tool.entries ++ fams.rigid.entries ++
      fams.contact.entries ++ fams.avatar.entries ++ fams.mpm.entries ++
      fams.sph.entries ++ fams.pbd.entries ++ fams.fem.entries ∧
    (c.update fams st).dynamic_nodes =
      fams.link_frame.newDynamic ++ fams.tool.newDynamic ++ fams.rigid.newDynamic ++
      fams.contact.newDynamic ++ fams.avatar.newDynamic ++ fams.mpm.newDynamic ++
      fams.sph.newDynamic ++ fams.pbd.newDynamic ++ fams.fem.newDynamic ∧
    (c.update fams st).bounds = none ∧
    (c.update fams st).visual_updates = c.visual_updates + 1 ∧
    (c.update fams st).trace = c.trace ++ resyncTrace := by
  have hnot : ¬ c.t ≥ st := not_le.mpr h
  obtain ⟨h1, h2, h3, h4, h5, h6, h7⟩ :=
    destroyFold_preserve c.dynamic_nodes { c with t := st }
  simp [RasterizerContext.update, hnot, RasterizerContext.clear_dynamic_nodes,
    RasterizerContext.applyFam, resyncTrace, h1, h2, h3, h4, h5, h6, h7]

/-- A second `update` at an unchanged time index is the identity. -/
theorem update_of_synced (c : RasterizerContext) (fams : FamilyUpdates)
    (st : Int) (h : st ≤ c.t) : c.update fams st = c := by
  simp [RasterizerContext.update, h]

/-- The reverse loop is the reverse-step body iterated `n` times. -/
theorem stepGradIter_eq_iterate (ops : SolverOps) (n : Nat) (st : SimState) :
    stepGradIter ops n st =
      (fun x => ops.sim_step_grad (ops.sim_collect_output_grads x))^[n] st := by
  induction n generalizing st with
  | zero => rfl
  | succ k ih =>
    rw [stepGradIter, Function.iterate_succ_apply]
    exact ih _

/-- Restoring preserves the number of environments. -/
theorem restoreEnvs_length (snap : SimState) (sel : List Nat) (k : Nat)
    (cur : SimState) : (restoreEnvs snap sel k cur).length = cur.length := by
  induction cur generalizing k with
  | nil => rfl
  | cons x xs ih => simp [restoreEnvs, ih]

/-- Element-wise behavior of the restricted restore: selected environments
take the snapshot entry, the others keep their current state. -/
theorem restoreEnvs_getElem? (snap : SimState) (sel : List Nat) :
    ∀ (cur : SimState) (k i : Nat) (v : EnvState), cur[i]? = some v →
      (restoreEnvs snap sel k cur)[i]? =
        some (if (k + i) ∈ sel then snap.getD (k + i) v else v) := by
  intro cur
  induction cur with
  | nil => intro k i v h; simp at h
  | cons x xs ih =>
    intro k i v h
    cases i with
    | zero =>
      rw [List.getElem?_cons_zero, Option.some_inj] at h
      subst h
      simp [restoreEnvs]
    | succ j =>
      rw [List.getElem?_cons_succ] at h
      have harith : k + 1 + j = k + (j + 1) := by omega
      have := ih (k + 1) j v h
      rw [harith] at this
      simpa [restoreEnvs] using this

/-! ## Claim theorems -/

/-- C1: on a built scene with `backward_ready`, `backward()` succeeds,
performing the reverse-step accumulation `t` times (decrementing `t` to
0), then lowers both ready flags; a second `backward()` without reset and
any subsequent `step()` before reset both fail with the invalid-state
error. -/
theorem scene_backward_single_pass (ops : SolverOps) (fams : FamilyUpdates)
    (s : SceneM) (hbuilt : s.is_built = true) (hb : s.backward_ready = true) :
    ∃ s1, SceneM.backward ops s = .ok s1 ∧
      s1.t = 0 ∧
      s1.sim = (fun st => ops.sim_step_grad (ops.sim_collect_output_grads st))^[s.t] s.sim ∧
      s1.forward_ready = false ∧
      s1.backward_ready = false ∧
      SceneM.backward ops s1 = .error (.invalidState "Multiple backward calls not allowed.") ∧
      SceneM.step ops fams s1 true =
        .error (.invalidState "Forward simulation not allowed after backward pass. Please reset scene state.") := by
  refine ⟨{ s with sim := stepGradIter ops s.t s.sim, t := 0, backward_ready := false, forward_ready := false },
    ?_, rfl, stepGradIter_eq_iterate ops s.t s.sim, rfl, rfl, ?_, ?_⟩
  · simp [SceneM.backward, hb]
  · simp [SceneM.backward]
  · simp [SceneM.step, hbuilt]

/-- C1 witness: the sample scene (two steps taken) runs one backward pass
to `t = 0` and then refuses further backward or forward calls. -/
theorem scene_backward_single_pass_witness :
    sampleScene.is_built = true ∧ sampleScene.backward_ready = true ∧
    ∃ s1, SceneM.backward idSolverOps sampleScene = .ok s1 ∧
      s1.t = 0 ∧
      s1.sim = (fun st => idSolverOps.sim_step_grad
        (idSolverOps.sim_collect_output_grads st))^[sampleScene.t] sampleScene.sim ∧
      s1.forward_ready = false ∧
      s1.backward_ready = false ∧
      SceneM.backward idSolverOps s1 =
        .error (.invalidState "Multiple backward calls not allowed.") ∧
      SceneM.step idSolverOps sampleFams s1 true =
        .error (.invalidState "Forward simulation not allowed after backward pass. Please reset scene state.") :=
  ⟨rfl, rfl, scene_backward_single_pass idSolverOps sampleFams sampleScene rfl rfl⟩

/-- C3: on a built scene, `reset(state, envs_idx)` installs a provided
state as the new `init_state` (otherwise reapplies the existing one),
restores the Simulator to that snapshot restricted to `envs_idx` (all
environments when omitted), zeroes `t`, raises both ready flags, resets
the render mirror's staleness marker, and rewinds every emitter's replay
cursor. -/
theorem scene_reset_spec (s : SceneM) (state : Option SimState)
    (envs_idx : Option (List Nat)) (hbuilt : s.is_built = true) :
    ∃ s1, SceneM.reset s state envs_idx = .ok s1 ∧
      s1.init_state = state.getD s.init_state ∧
      (envs_idx = none → s1.sim = state.getD s.init_state) ∧
      (∀ sel, envs_idx = some sel → ∀ i v, s.sim[i]? = some v →
        s1.sim[i]? = some (if i ∈ sel then (state.getD s.init_state).getD i v else v)) ∧
      (∀ sel, envs_idx = some sel → s1.sim.length = s.sim.length) ∧
      s1.t = 0 ∧ s1.forward_ready = true ∧ s1.backward_ready = true ∧
      s1.ctx.t = -1 ∧
      s1.emitters = s.emitters.map EmitterM.reset ∧
      (∀ e ∈ s1.emitters, e.next_particle = 0) := by
  refine ⟨s.resetImpl state envs_idx, by simp [SceneM.reset, hbuilt], ?_, ?_, ?_, ?_,
    rfl, rfl, rfl, rfl, rfl, ?_⟩
  · simp [SceneM.resetImpl, hbuilt]
  · intro hnone
    subst hnone
    simp [SceneM.resetImpl, hbuilt, simReset]
  · intro sel hsel i v hv
    subst hsel
    have := restoreEnvs_getElem? (state.getD s.init_state) sel s.sim 0 i v hv
    rw [Nat.zero_add] at this
    simpa [SceneM.resetImpl, hbuilt, simReset] using this
  · intro sel hsel
    subst hsel
    simp [SceneM.resetImpl, hbuilt, simReset, restoreEnvs_length]
  · intro e he
    simp only [SceneM.resetImpl, List.mem_map] at he
    obtain ⟨e0, _, rfl⟩ := he
    rfl

/-- C3 witness: resetting the sample scene to a provided state restricted
to environment 1 yields `t = 0` and a reset staleness marker. -/
theorem scene_reset_spec_witness :
    sampleScene.is_built = true ∧
    ∃ s1, SceneM.reset sampleScene (some [[9, 9], [3, 3]]) (some [1]) = .ok s1 ∧
      s1.t = 0 ∧ s1.ctx.t = -1 := by
  obtain ⟨s1, h1, _, _, _, _, ht, _, _, hctx, _, _⟩ :=
    scene_reset_spec sampleScene (some [[9, 9], [3, 3]]) (some [1]) rfl
  exact ⟨rfl, s1, h1, ht, hctx⟩

/-- Indexing `torch.arange(B)` with the slice `i : i+1` for `0 <= i < B`
yields the one-element selection `[i]`. -/
theorem pySlice_singleton (B : Nat) (i : Int) (h0 : 0 ≤ i) (hB : i < (B : Int)) :
    pySlice ((List.range B).map Int.ofNat) i (i + 1) = [i] := by
  have hlen : ((List.range B).map Int.ofNat).length = B := by simp
  have hiN : i.toNat < B := by omega
  have h1 : ¬ (i < 0) := not_lt.mpr h0
  have h2 : ¬ (i + 1 < 0) := by omega
  unfold pySlice pyNorm
  rw [hlen, if_neg h1, if_neg h2]
  have hm1 : max i 0 = i := max_eq_left h0
  have hm2 : max (i + 1) 0 = i + 1 := max_eq_left (by omega)
  rw [hm1, hm2]
  have ht1 : i.toNat.min B = i.toNat := Nat.min_eq_left (Nat.le_of_lt hiN)
  have ht2 : (i + 1).toNat = i.toNat + 1 := by omega
  have ht3 : (i.toNat + 1).min B = i.toNat + 1 := Nat.min_eq_left hiN
  rw [ht1, ht2, ht3]
  have hdrop : ((List.range B).map Int.ofNat).drop i.toNat =
      ((List.range B).map Int.ofNat)[i.toNat] ::
        ((List.range B).map Int.ofNat).drop (i.toNat + 1) :=
    List.drop_eq_getElem_cons (by omega)
  rw [Nat.add_sub_cancel_left, hdrop, List.take_succ_cons, List.take_zero]
  have hb : i.toNat < ((List.range B).map Int.ofNat).length := by simpa using hiN
  have hget : ((List.range B).map Int.ofNat)[i.toNat] = i := by
    simp [Int.toNat_of_nonneg h0]
  rw [hget]

/-- C4 counterexample: with `n_envs = 1` the batch size is `B = max(1, 1)
= 1`, yet the non-empty explicit selector `[0]` is accepted — the guard in
`_sanitize_envs_idx` tests `n_envs == 0`, not `B == 1`. -/
theorem sanitize_envs_idx_accepts_single_env_selector :
    max 1 1 = 1 ∧
    sanitize_envs_idx 1 (.arrArg [1] [0]) false = .ok [0] := by
  exact ⟨rfl, rfl⟩

/-- C4 (amended): `None` selects all environments; any non-`None`
selector is rejected with `ConfigError` exactly when `n_envs == 0` (no
batching configured — when `n_envs >= 1`, including `n_envs = 1` where
`B == 1`, selectors are accepted); slices and single integers are
accepted, an in-range integer being promoted to a length-1 selection;
explicit index arrays that are not 1-dimensional, or that contain an
index outside `[0, n_envs)` (which equals `[0, B)` whenever this check is
reached), fail with `RangeError`; in-range 1-D arrays pass through. -/
theorem sanitize_envs_idx_spec (n_envs : Nat) :
    (sanitize_envs_idx n_envs .noneArg false =
      .ok ((List.range (max 1 n_envs)).map Int.ofNat)) ∧
    (∀ a : EnvsIdxArg, a ≠ .noneArg → n_envs = 0 →
      sanitize_envs_idx n_envs a false =
        .error (.config "envs_idx is not supported for non-parallelized scene.")) ∧
    (∀ st sp : Int, n_envs ≠ 0 →
      ∃ l, sanitize_envs_idx n_envs (.sliceArg st sp) false = .ok l) ∧
    (∀ i : Int, n_envs ≠ 0 → 0 ≤ i → i < (n_envs : Int) →
      sanitize_envs_idx n_envs (.intArg i) false = .ok [i]) ∧
    (∀ shape data, n_envs ≠ 0 → (if shape.isEmpty then [1] else shape).length ≠ 1 →
      sanitize_envs_idx n_envs (.arrArg shape data) false =
        .error (.range "Expecting a 1D tensor for envs_idx.")) ∧
    (∀ shape data, n_envs ≠ 0 → shape.length = 1 →
      (∃ x ∈ data, x < 0 ∨ (n_envs : Int) ≤ x) →
      sanitize_envs_idx n_envs (.arrArg shape data) false =
        .error (.range "envs_idx exceeds valid range.")) ∧
    (∀ shape data, n_envs ≠ 0 → shape.length = 1 →
      (∀ x ∈ data, 0 ≤ x ∧ x < (n_envs : Int)) →
      sanitize_envs_idx n_envs (.arrArg shape data) false = .ok data) := by
  refine ⟨rfl, ?_, ?_, ?_, ?_, ?_, ?_⟩
  · intro a ha h0
    subst h0
    cases a with
    | noneArg => exact absurd rfl ha
    | sliceArg st sp => rfl
    | intArg i => rfl
    | arrArg shape data => rfl
  · intro st sp hn
    exact ⟨pySlice ((List.range (max 1 n_envs)).map Int.ofNat) st sp,
      by simp [sanitize_envs_idx, hn]⟩
  · intro i hn h0 hlt
    have hBmax : max 1 n_envs = n_envs := Nat.max_eq_right (by omega)
    have := pySlice_singleton (max 1 n_envs) i h0 (by rw [hBmax]; exact hlt)
    simp [sanitize_envs_idx, hn, this]
  · intro shape data hn hshape
    have hshape' : ¬ (if shape = [] then [1] else shape).length = 1 := by
      cases shape with
      | nil => simp at hshape
      | cons a as => simpa using hshape
    simp [sanitize_envs_idx, hn, hshape']
  · intro shape data hn hlen hex
    have hcond : (if shape = [] then [1] else shape).length = 1 := by
      cases shape with
      | nil => simp at hlen
      | cons a as => simpa using hlen
    simp [sanitize_envs_idx, hn, hcond, hex]
  · intro shape data hn hlen hall
    have hcond : (if shape = [] then [1] else shape).length = 1 := by
      cases shape with
      | nil => simp at hlen
      | cons a as => simpa using hlen
    have hnex : ¬ ∃ x ∈ data, x < 0 ∨ (n_envs : Int) ≤ x := by
      rintro ⟨x, hx, hor⟩
      obtain ⟨h0, h1⟩ := hall x hx
      cases hor <;> omega
    simp [sanitize_envs_idx, hn, hcond, hnex]

/-- C4 witness: with three environments, the accepted and rejected
selector shapes behave as the amended claim states; with none, any
selector is a configuration error. -/
theorem sanitize_envs_idx_spec_witness :
    sanitize_envs_idx 3 .noneArg false = .ok [0, 1, 2] ∧
    sanitize_envs_idx 0 (.intArg 0) false =
      .error (.config "envs_idx is not supported for non-parallelized scene.") ∧
    sanitize_envs_idx 3 (.intArg 1) false = .ok [1] ∧
    sanitize_envs_idx 3 (.arrArg [2, 1] [0, 1]) false =
      .error (.range "Expecting a 1D tensor for envs_idx.") ∧
    sanitize_envs_idx 3 (.arrArg [2] [0, 5]) false =
      .error (.range "envs_idx exceeds valid range.") ∧
    sanitize_envs_idx 3 (.arrArg [2] [0, 2]) false = .ok [0, 2] := by
  have h := sanitize_envs_idx_spec 3
  have h0 := sanitize_envs_idx_spec 0
  refine ⟨?_, h0.2.1 (.intArg 0) (by decide) rfl,
    h.2.2.2.1 1 (by decide) (by decide) (by decide),
    h.2.2.2.2.1 [2, 1] [0, 1] (by decide) (by decide),
    h.2.2.2.2.2.1 [2] [0, 5] (by decide) rfl ⟨5, by decide, Or.inr (by decide)⟩,
    h.2.2.2.2.2.2 [2] [0, 2] (by decide) rfl (by decide)⟩
  · rw [h.1]
    rfl

/-- Translating a whole list shifts its running maximum. -/
theorem foldl_max_sub (c : Rat) (xs : List Rat) :
    ∀ x : Rat, (xs.map (fun y => y - c)).foldl max (x - c) = xs.foldl max x - c := by
  induction xs with
  | nil => intro x; rfl
  | cons y ys ih =>
    intro x
    simp only [List.map_cons, List.foldl_cons, max_sub_sub_right]
    exact ih (max x y)

/-- Translating a whole list shifts its running minimum. -/
theorem foldl_min_sub (c : Rat) (xs : List Rat) :
    ∀ x : Rat, (xs.map (fun y => y - c)).foldl min (x - c) = xs.foldl min x - c := by
  induction xs with
  | nil => intro x; rfl
  | cons y ys ih =>
    intro x
    simp only [List.map_cons, List.foldl_cons, min_sub_sub_right]
    exact ih (min x y)

/-- `listMax` commutes with a uniform translation on nonempty lists. -/
theorem listMax_map_sub (l : List Rat) (c : Rat) (h : l ≠ []) :
    listMax (l.map (fun y => y - c)) = listMax l - c := by
  cases l with
  | nil => exact absurd rfl h
  | cons x xs => simpa [listMax] using foldl_max_sub c xs x

/-- `listMin` commutes with a uniform translation on nonempty lists. -/
theorem listMin_map_sub (l : List Rat) (c : Rat) (h : l ≠ []) :
    listMin (l.map (fun y => y - c)) = listMin l - c := by
  cases l with
  | nil => exact absurd rfl h
  | cons x xs => simpa [listMin] using foldl_min_sub c xs x

/-- The raw offset grid has one entry per environment, in order. -/
theorem rawOffsets_getElem? (B nper : Nat) (sx sy : Rat) (i : Nat) (h : i < B) :
    (rawOffsets B nper sx sy)[i]? = some (rawOffset nper sx sy i) := by
  simp [rawOffsets, h]

/-- The raw offset grid is nonempty (`B >= 1`). -/
theorem rawOffsets_ne_nil (B nper : Nat) (sx sy : Rat) (hB : 1 ≤ B) :
    rawOffsets B nper sx sy ≠ [] := by
  intro hnil
  have : (rawOffsets B nper sx sy).length = B := by simp [rawOffsets]
  rw [hnil] at this
  simp at this
  omega

/-- After recentering, the per-axis extremes of a nonempty offset list
sum to zero (the extremes straddle the origin). -/
theorem centered_axis_extremes (xs : List Rat) (h : xs ≠ []) :
    listMax (xs.map (fun y => y - (listMax xs + listMin xs) / 2)) +
      listMin (xs.map (fun y => y - (listMax xs + listMin xs) / 2)) = 0 := by
  rw [listMax_map_sub xs _ h, listMin_map_sub xs _ h]
  ring

/-- The offset grid always has one entry per environment. -/
theorem envOffsets_length (B nper : Nat) (sx sy : Rat) (center : Bool) :
    (envOffsets B nper sx sy center).length = B := by
  cases center <;> simp [envOffsets, rawOffsets]

/-- Entry `i` of the offset grid is the grid formula, shifted by the
recentering offset when centering is on. -/
theorem envOffsets_getElem? (B nper : Nat) (sx sy : Rat) (center : Bool)
    (i : Nat) (hi : i < B) :
    (envOffsets B nper sx sy center)[i]? = some
      (((i / nper : Nat) : Rat) * sx -
         (if center then (centerShift (rawOffsets B nper sx sy)).1 else 0),
       ((i % nper : Nat) : Rat) * sy -
         (if center then (centerShift (rawOffsets B nper sx sy)).2.1 else 0),
       0 - (if center then (centerShift (rawOffsets B nper sx sy)).2.2 else 0)) := by
  cases center with
  | false =>
    simp only [envOffsets, if_neg (by simp : ¬ (false = true)), if_false]
    rw [rawOffsets_getElem? B nper sx sy i hi]
    simp [rawOffset]
  | true =>
    simp only [envOffsets, if_pos rfl, if_true]
    rw [List.getElem?_map, rawOffsets_getElem? B nper sx sy i hi]
    rfl

/-- With centering on, every axis of the offset grid has extremes that
sum to zero. -/
theorem envOffsets_extremes (B nper : Nat) (sx sy : Rat) (hB : 1 ≤ B) :
    listMax ((envOffsets B nper sx sy true).map (fun p => p.1)) +
      listMin ((envOffsets B nper sx sy true).map (fun p => p.1)) = 0 ∧
    listMax ((envOffsets B nper sx sy true).map (fun p => p.2.1)) +
      listMin ((envOffsets B nper sx sy true).map (fun p => p.2.1)) = 0 ∧
    listMax ((envOffsets B nper sx sy true).map (fun p => p.2.2)) +
      listMin ((envOffsets B nper sx sy true).map (fun p => p.2.2)) = 0 := by
  have hne := rawOffsets_ne_nil B nper sx sy hB
  have hxne : (rawOffsets B nper sx sy).map (fun p => p.1) ≠ [] := by
    intro hh
    exact hne (List.map_eq_nil_iff.mp hh)
  have hyne : (rawOffsets B nper sx sy).map (fun p => p.2.1) ≠ [] := by
    intro hh
    exact hne (List.map_eq_nil_iff.mp hh)
  have hzne : (rawOffsets B nper sx sy).map (fun p => p.2.2) ≠ [] := by
    intro hh
    exact hne (List.map_eq_nil_iff.mp hh)
  have hx : (envOffsets B nper sx sy true).map (fun p => p.1) =
      ((rawOffsets B nper sx sy).map (fun p => p.1)).map
        (fun y => y - (listMax ((rawOffsets B nper sx sy).map (fun p => p.1)) +
          listMin ((rawOffsets B nper sx sy).map (fun p => p.1))) / 2) := by
    simp [envOffsets, centerShift, List.map_map]
  have hy : (envOffsets B nper sx sy true).map (fun p => p.2.1) =
      ((rawOffsets B nper sx sy).map (fun p => p.2.1)).map
        (fun y => y - (listMax ((rawOffsets B nper sx sy).map (fun p => p.2.1)) +
          listMin ((rawOffsets B nper sx sy).map (fun p => p.2.1))) / 2) := by
    simp [envOffsets, centerShift, List.map_map]
  have hz : (envOffsets B nper sx sy true).map (fun p => p.2.2) =
      ((rawOffsets B nper sx sy).map (fun p => p.2.2)).map
        (fun y => y - (listMax ((rawOffsets B nper sx sy).map (fun p => p.2.2)) +
          listMin ((rawOffsets B nper sx sy).map (fun p => p.2.2))) / 2) := by
    simp [envOffsets, centerShift, List.map_map]
  refine ⟨?_, ?_, ?_⟩
  · rw [hx]
    exact centered_axis_extremes _ hxne
  · rw [hy]
    exact centered_axis_extremes _ hyne
  · rw [hz]
    exact centered_axis_extremes _ hzne

/-- C6: the environment offset computation is a pure function of
`(B, spacing, n_envs_per_row, center)` (in this embedding it is a total
Lean function, hence deterministic and reproducible): environment `i`
receives `((i div n_envs_per_row) * spacing_x, (i mod n_envs_per_row) *
spacing_y, 0)`, uniformly shifted so that the per-axis extremes straddle
the origin when centering is requested; and the build-time layout
computation fails with `ConfigError` whenever `env_spacing` is not a
2-element sequence. -/
theorem parallelize_offsets_spec (n_envs : Nat) (spacing : List Rat)
    (nperArg : Option Nat) (center : Bool) :
    (spacing.length ≠ 2 →
      scene_parallelize n_envs spacing nperArg center =
        .error (.config "env_spacing should be a tuple of length 2.")) ∧
    (spacing.length = 2 →
      ∃ out, scene_parallelize n_envs spacing nperArg center = .ok out ∧
        out.B = max 1 n_envs ∧
        out.n_envs_per_row = nperArg.getD (ceilSqrt (max 1 n_envs)) ∧
        out.envs_offset.length = out.B ∧
        (∃ shift : Rat × Rat × Rat,
          (center = false → shift = (0, 0, 0)) ∧
          ∀ i, i < out.B →
            out.envs_offset[i]? = some
              (((i / out.n_envs_per_row : Nat) : Rat) * spacing.getD 0 0 - shift.1,
               ((i % out.n_envs_per_row : Nat) : Rat) * spacing.getD 1 0 - shift.2.1,
               0 - shift.2.2)) ∧
        (center = true →
          listMax (out.envs_offset.map (fun p => p.1)) +
            listMin (out.envs_offset.map (fun p => p.1)) = 0 ∧
          listMax (out.envs_offset.map (fun p => p.2.1)) +
            listMin (out.envs_offset.map (fun p => p.2.1)) = 0 ∧
          listMax (out.envs_offset.map (fun p => p.2.2)) +
            listMin (out.envs_offset.map (fun p => p.2.2)) = 0)) := by
  constructor
  · intro h
    simp [scene_parallelize, h]
  · intro h2
    refine ⟨{ B := max 1 n_envs,
              n_envs_per_row := nperArg.getD (ceilSqrt (max 1 n_envs)),
              envs_offset := envOffsets (max 1 n_envs)
                (nperArg.getD (ceilSqrt (max 1 n_envs)))
                (spacing.getD 0 0) (spacing.getD 1 0) center },
      by simp [scene_parallelize, h2], rfl, rfl, envOffsets_length _ _ _ _ _, ?_, ?_⟩
    · refine ⟨(if center then centerShift (rawOffsets (max 1 n_envs)
          (nperArg.getD (ceilSqrt (max 1 n_envs))) (spacing.getD 0 0) (spacing.getD 1 0))
          else (0, 0, 0)), ?_, ?_⟩
      · intro hc
        rw [hc]
        simp
      · intro i hi
        rw [envOffsets_getElem? _ _ _ _ _ i hi]
        cases center <;> simp
    · intro hc
      subst hc
      exact envOffsets_extremes _ _ _ _ (le_max_left 1 n_envs)

/-- C6 witness: a malformed 1-element spacing is rejected; with four
environments, spacing `(2, 3)` and centering, the computation succeeds
and the x-axis extremes straddle the origin. -/
theorem parallelize_offsets_spec_witness :
    scene_parallelize 0 [2] none true =
      .error (.config "env_spacing should be a tuple of length 2.") ∧
    ∃ out, scene_parallelize 4 [2, 3] none true = .ok out ∧
      listMax (out.envs_offset.map (fun p => p.1)) +
        listMin (out.envs_offset.map (fun p => p.1)) = 0 := by
  refine ⟨(parallelize_offsets_spec 0 [2] none true).1 (by decide), ?_⟩
  obtain ⟨out, hok, _, _, _, _, hcent⟩ :=
    (parallelize_offsets_spec 4 [2, 3] none true).2 rfl
  exact ⟨out, hok, (hcent rfl).1⟩

/-- Behavior of `seg_key_to_idxc` on a key never seen before: it is
assigned the next dense id (the current table size). -/
theorem seg_key_to_idxc_fresh (m : SegMaps) (k : SegKey)
    (h : alookup k m.seg_key_map = none) :
    m.seg_key_to_idxc k = (m.seg_key_map.length,
      { seg_key_map := m.seg_key_map ++ [(k, m.seg_key_map.length)],
        seg_idxc_map := aupdate m.seg_key_map.length k m.seg_idxc_map }) := by
  simp [SegMaps.seg_key_to_idxc, h]

/-- Behavior of `seg_key_to_idxc` on an already-seen key: the stored id is
returned and `seg_key_map` does not change. -/
theorem seg_key_to_idxc_hit (m : SegMaps) (k : SegKey) (v : Nat)
    (h : alookup k m.seg_key_map = some v) :
    m.seg_key_to_idxc k = (v, { m with seg_idxc_map := aupdate v k m.seg_idxc_map }) := by
  simp [SegMaps.seg_key_to_idxc, h]

/-- Feeding a run of fresh, pairwise-distinct keys grows `seg_key_map` by
exactly the tagged run with consecutive ids starting at the old size. -/
theorem assignAll_key_map : ∀ (ks : List SegKey) (m : SegMaps),
    (∀ k ∈ ks, alookup k m.seg_key_map = none) → ks.Nodup →
    (SegMaps.assignAll m ks).seg_key_map =
      m.seg_key_map ++ tagFrom m.seg_key_map.length ks := by
  intro ks
  induction ks with
  | nil =>
    intro m _ _
    simp [SegMaps.assignAll, tagFrom]
  | cons k ks ih =>
    intro m hfresh hnd
    have hk := hfresh k (List.mem_cons_self k ks)
    have h2 : (m.seg_key_to_idxc k).2 =
        { seg_key_map := m.seg_key_map ++ [(k, m.seg_key_map.length)],
          seg_idxc_map := aupdate m.seg_key_map.length k m.seg_idxc_map } := by
      rw [seg_key_to_idxc_fresh m k hk]
    have hstep : SegMaps.assignAll m (k :: ks) =
        SegMaps.assignAll ((m.seg_key_to_idxc k).2) ks := by
      simp [SegMaps.assignAll]
    have hfresh' : ∀ k' ∈ ks,
        alookup k' (m.seg_key_map ++ [(k, m.seg_key_map.length)]) = none := by
      intro k' hk'
      have hne : ¬ (k = k') := by
        intro he
        exact (List.nodup_cons.mp hnd).1 (he ▸ hk')
      rw [alookup_append, hfresh k' (List.mem_cons_of_mem _ hk')]
      simp [alookup, hne]
    rw [hstep, h2,
      ih { seg_key_map := m.seg_key_map ++ [(k, m.seg_key_map.length)],
           seg_idxc_map := aupdate m.seg_key_map.length k m.seg_idxc_map }
        hfresh' (List.nodup_cons.mp hnd).2]
    simp [tagFrom, List.append_assoc]

/-- Looking up the `i`-th key of a tagged run yields id `n + i`. -/
theorem tagFrom_alookup : ∀ (ks : List SegKey) (n i : Nat) (h : i < ks.length),
    ks.Nodup → alookup (ks.get ⟨i, h⟩) (tagFrom n ks) = some (n + i) := by
  intro ks
  induction ks with
  | nil =>
    intro n i h
    simp at h
  | cons k ks ih =>
    intro n i h hnd
    cases i with
    | zero => simp [tagFrom, alookup]
    | succ j =>
      have hj : j < ks.length := by simpa using h
      have hget : (k :: ks).get ⟨j + 1, h⟩ = ks.get ⟨j, hj⟩ := rfl
      have hmem : ks.get ⟨j, hj⟩ ∈ ks := List.get_mem ks j hj
      have hne : ¬ (k = ks.get ⟨j, hj⟩) := by
        intro he
        exact (List.nodup_cons.mp hnd).1 (he ▸ hmem)
      rw [hget]
      simp only [tagFrom, alookup, if_neg hne]
      rw [ih (n + 1) j hj (List.nodup_cons.mp hnd).2]
      congr 1
      omega

/-- The reserved background binding `0 ↦ -1` of `seg_idxc_map` survives a
run of fresh distinct keys (every newly allocated id is positive). -/
theorem assignAll_idxc_zero : ∀ (ks : List SegKey) (m : SegMaps),
    (∀ k ∈ ks, alookup k m.seg_key_map = none) → ks.Nodup →
    1 ≤ m.seg_key_map.length →
    alookup 0 m.seg_idxc_map = some (-1) →
    alookup 0 (SegMaps.assignAll m ks).seg_idxc_map = some (-1) := by
  intro ks
  induction ks with
  | nil =>
    intro m _ _ _ h0
    exact h0
  | cons k ks ih =>
    intro m hfresh hnd hlen h0
    have hk := hfresh k (List.mem_cons_self k ks)
    have h2 : (m.seg_key_to_idxc k).2 =
        { seg_key_map := m.seg_key_map ++ [(k, m.seg_key_map.length)],
          seg_idxc_map := aupdate m.seg_key_map.length k m.seg_idxc_map } := by
      rw [seg_key_to_idxc_fresh m k hk]
    have hstep : SegMaps.assignAll m (k :: ks) =
        SegMaps.assignAll ((m.seg_key_to_idxc k).2) ks := by
      simp [SegMaps.assignAll]
    have hfresh' : ∀ k' ∈ ks,
        alookup k' (m.seg_key_map ++ [(k, m.seg_key_map.length)]) = none := by
      intro k' hk'
      have hne : ¬ (k = k') := by
        intro he
        exact (List.nodup_cons.mp hnd).1 (he ▸ hk')
      rw [alookup_append, hfresh k' (List.mem_cons_of_mem _ hk')]
      simp [alookup, hne]
    rw [hstep, h2]
    refine ih _ hfresh' (List.nodup_cons.mp hnd).2 (by simp) ?_
    have hzne : (0 : Nat) ≠ m.seg_key_map.length := by omega
    simpa [aupdate_alookup_ne _ _ _ _ hzne] using h0

/-- C7: starting from the build-time table (id 0 reserved for the
background key `-1`), a run of `N` distinct first-seen keys receives the
ids `1..N` in encounter order; the background binding is untouched in both
directions; and re-querying an already-seen key returns its stored id
without growing the table. -/
theorem seg_ids_first_seen_order (ks : List SegKey) (hnd : ks.Nodup)
    (hbg : (-1 : Int) ∉ ks) :
    (SegMaps.assignAll SegMaps.init ks).seg_key_map = [(-1, 0)] ++ tagFrom 1 ks ∧
    alookup (-1) (SegMaps.assignAll SegMaps.init ks).seg_key_map = some 0 ∧
    (∀ i (h : i < ks.length),
      alookup (ks.get ⟨i, h⟩) (SegMaps.assignAll SegMaps.init ks).seg_key_map =
        some (i + 1)) ∧
    alookup 0 (SegMaps.assignAll SegMaps.init ks).seg_idxc_map = some (-1) ∧
    (∀ k ∈ ks,
      ((SegMaps.assignAll SegMaps.init ks).seg_key_to_idxc k).2.seg_key_map =
        (SegMaps.assignAll SegMaps.init ks).seg_key_map ∧
      alookup k (SegMaps.assignAll SegMaps.init ks).seg_key_map =
        some ((SegMaps.assignAll SegMaps.init ks).seg_key_to_idxc k).1) := by
  have hfresh : ∀ k ∈ ks, alookup k SegMaps.init.seg_key_map = none := by
    intro k hk
    have hne : ¬ ((-1 : Int) = k) := by
      intro he
      exact hbg (he ▸ hk)
    simp [SegMaps.init, alookup, hne]
  have hchar := assignAll_key_map ks SegMaps.init hfresh hnd
  have hchar' : (SegMaps.assignAll SegMaps.init ks).seg_key_map =
      [((-1 : Int), (0 : Nat))] ++ tagFrom 1 ks := hchar
  have hlook : ∀ i (h : i < ks.length),
      alookup (ks.get ⟨i, h⟩) (SegMaps.assignAll SegMaps.init ks).seg_key_map =
        some (i + 1) := by
    intro i h
    have hne : ¬ ((-1 : Int) = ks.get ⟨i, h⟩) := by
      intro he
      exact hbg (he ▸ List.get_mem ks i h)
    rw [hchar', List.singleton_append]
    simp only [alookup, if_neg hne]
    rw [tagFrom_alookup ks 1 i h hnd]
    congr 1
    omega
  refine ⟨hchar', by rw [hchar']; simp [alookup], hlook, ?_, ?_⟩
  · exact assignAll_idxc_zero ks SegMaps.init hfresh hnd (by simp [SegMaps.init]) rfl
  · intro k hk
    obtain ⟨⟨i, h⟩, hget⟩ := List.mem_iff_get.mp hk
    have hl := hlook i h
    rw [hget] at hl
    rw [seg_key_to_idxc_hit _ k (i + 1) hl]
    exact ⟨rfl, hl⟩

/-- C7 witness: the keys `5, 2, 7` receive ids `1, 2, 3`; the background
key keeps id 0. -/
theorem seg_ids_first_seen_order_witness :
    ([5, 2, 7] : List SegKey).Nodup ∧
    alookup (-1) (SegMaps.assignAll SegMaps.init [5, 2, 7]).seg_key_map = some 0 ∧
    alookup 5 (SegMaps.assignAll SegMaps.init [5, 2, 7]).seg_key_map = some 1 ∧
    alookup 2 (SegMaps.assignAll SegMaps.init [5, 2, 7]).seg_key_map = some 2 ∧
    alookup 7 (SegMaps.assignAll SegMaps.init [5, 2, 7]).seg_key_map = some 3 ∧
    alookup 0 (SegMaps.assignAll SegMaps.init [5, 2, 7]).seg_idxc_map = some (-1) := by
  have h := seg_ids_first_seen_order [5, 2, 7] (by decide) (by decide)
  exact ⟨by decide, h.2.1, h.2.2.1 0 (by decide), h.2.2.1 1 (by decide),
    h.2.2.1 2 (by decide), h.2.2.2.1⟩

/-- Pointwise-equal functions give equal maps. -/
theorem map_congr_mem {α β : Type} (l : List α) (f g : α → β)
    (h : ∀ a ∈ l, f a = g a) : l.map f = l.map g := by
  induction l with
  | nil => rfl
  | cons a as ih =>
    simp only [List.map_cons, h a (List.mem_cons_self a as)]
    rw [ih (fun x hx => h x (List.mem_cons_of_mem _ hx))]

/-- Appending a binding with a fresh key does not change other lookups. -/
theorem alookup_append_fresh {α β : Type} [DecidableEq α] (k n : α) (v : β)
    (arrays : List (α × β)) (hne : k ≠ n) :
    alookup k (arrays ++ [(n, v)]) = alookup k arrays := by
  rw [alookup_append]
  have hnk : ¬ (n = k) := fun he => hne he.symm
  have h1 : alookup k [(n, v)] = (none : Option β) := by
    simp [alookup, hnk]
  rw [h1]
  cases alookup k arrays <;> rfl

/-- Write-back over a key-compatible buffer list restores exactly the
dumped contents when every dumped binding is found in the mapping. -/
theorem restore_fields (arrays : List (String × Payload)) :
    ∀ (l' l : List (String × Payload)),
      l'.map Prod.fst = l.map Prod.fst →
      (∀ p ∈ l, alookup p.1 arrays = some p.2) →
      l'.map (loadArray arrays) = l := by
  intro l'
  induction l' with
  | nil =>
    intro l hk _
    cases l with
    | nil => rfl
    | cons p ps => simp at hk
  | cons p' ps' ih =>
    intro l hk hmem
    cases l with
    | nil => simp at hk
    | cons p ps =>
      obtain ⟨a, b⟩ := p
      simp only [List.map_cons, List.cons.injEq] at hk
      have hp : alookup a arrays = some b := hmem (a, b) (List.mem_cons_self _ _)
      have hload : loadArray arrays p' = (a, b) := by
        simp [loadArray, hk.1, hp]
      simp only [List.map_cons, hload]
      rw [ih ps hk.2 (fun q hq => hmem q (List.mem_cons_of_mem _ hq))]

/-- Per-solver write-back restores every solver when buffer names match
and every dumped binding is found in the mapping. -/
theorem solvers_restore (arrays : List (String × Payload)) :
    ∀ (svs' svs : List SolverCk),
      svs'.map (fun sv => sv.buffers.map Prod.fst) =
        svs.map (fun sv => sv.buffers.map Prod.fst) →
      (∀ sv ∈ svs, ∀ p ∈ sv.buffers, alookup p.1 arrays = some p.2) →
      svs'.map (fun sv => sv.load arrays) = svs := by
  intro svs'
  induction svs' with
  | nil =>
    intro svs hk _
    cases svs with
    | nil => rfl
    | cons sv tl => simp at hk
  | cons sv' tl' ih =>
    intro svs hk hmem
    cases svs with
    | nil => simp at hk
    | cons sv tl =>
      obtain ⟨bufs⟩ := sv
      simp only [List.map_cons, List.cons.injEq] at hk
      have hload : sv'.load arrays = SolverCk.mk bufs := by
        simp only [SolverCk.load]
        exact congrArg SolverCk.mk
          (restore_fields arrays sv'.buffers bufs hk.1
            (fun p hp => hmem ⟨bufs⟩ (List.mem_cons_self _ _) p hp))
      simp only [List.map_cons, hload]
      rw [ih tl hk.2 (fun sv2 h2 p hp => hmem sv2 (List.mem_cons_of_mem _ h2) p hp)]

/-- C5: `save_checkpoint` produces one record with a wall-clock timestamp,
the step index, and the flat field mapping of the Scene and its active
solvers; `load_checkpoint` writes back only same-named present buffers,
silently ignores unknown keys, and restores `t`, so a save/load round
trip into an identically configured scene reproduces the numeric state
and `t` exactly. -/
theorem checkpoint_roundtrip (s s' : SceneCk) (ts : Int)
    (hf : s'.fields.map Prod.fst = s.fields.map Prod.fst)
    (hs : s'.solvers.map (fun sv => sv.buffers.map Prod.fst) =
      s.solvers.map (fun sv => sv.buffers.map Prod.fst))
    (hnd : (s.dump_ckpt_to_numpy.map Prod.fst).Nodup) :
    (s.save_checkpoint ts).timestamp = ts ∧
    (s.save_checkpoint ts).step_index = some s.t ∧
    (s.save_checkpoint ts).arrays =
      s.fields ++ (s.solvers.map SolverCk.buffers).flatten ∧
    s'.load_checkpoint (s.save_checkpoint ts) =
      { t := s.t, fields := s.fields, solvers := s.solvers } ∧
    (∀ ck : Checkpoint, ∀ p ∈ s'.fields, alookup p.1 ck.arrays = none →
      p ∈ (s'.load_checkpoint ck).fields) ∧
    (∀ ck : Checkpoint, ∀ n v, n ∉ s'.fields.map Prod.fst →
      (∀ sv ∈ s'.solvers, n ∉ sv.buffers.map Prod.fst) →
      s'.load_checkpoint { ck with arrays := ck.arrays ++ [(n, v)] } =
        s'.load_checkpoint ck) := by
  have hmemf : ∀ p ∈ s.fields, alookup p.1 s.dump_ckpt_to_numpy = some p.2 := by
    intro p hp
    exact alookup_mem_nodup _ p hnd (List.mem_append_left _ hp)
  have hmems : ∀ sv ∈ s.solvers, ∀ p ∈ sv.buffers,
      alookup p.1 s.dump_ckpt_to_numpy = some p.2 := by
    intro sv hsv p hp
    refine alookup_mem_nodup _ p hnd (List.mem_append_right _ ?_)
    exact List.mem_flatten.mpr ⟨sv.buffers, List.mem_map.mpr ⟨sv, hsv, rfl⟩, hp⟩
  refine ⟨rfl, rfl, rfl, ?_, ?_, ?_⟩
  · have hfields := restore_fields s.dump_ckpt_to_numpy s'.fields s.fields hf hmemf
    have hsolv := solvers_restore s.dump_ckpt_to_numpy s'.solvers s.solvers hs hmems
    simp only [SceneCk.load_checkpoint, SceneCk.save_checkpoint]
    rw [hfields, hsolv]
    rfl
  · intro ck p hp hnone
    simp only [SceneCk.load_checkpoint]
    exact List.mem_map.mpr ⟨p, hp, by simp [loadArray, hnone]⟩
  · intro ck n v hnf hns
    have hfe : s'.fields.map (loadArray (ck.arrays ++ [(n, v)])) =
        s'.fields.map (loadArray ck.arrays) := by
      refine map_congr_mem _ _ _ ?_
      intro p hp
      have hne : p.1 ≠ n := by
        intro he
        exact hnf (he ▸ List.mem_map.mpr ⟨p, hp, rfl⟩)
      simp [loadArray, alookup_append_fresh _ _ _ _ hne]
    have hse : s'.solvers.map (fun sv => sv.load (ck.arrays ++ [(n, v)])) =
        s'.solvers.map (fun sv => sv.load ck.arrays) := by
      refine map_congr_mem _ _ _ ?_
      intro sv hsv
      simp only [SolverCk.load]
      refine congrArg SolverCk.mk (map_congr_mem _ _ _ ?_)
      intro p hp
      have hne : p.1 ≠ n := by
        intro he
        exact hns sv hsv (he ▸ List.mem_map.mpr ⟨p, hp, rfl⟩)
      simp [loadArray, alookup_append_fresh _ _ _ _ hne]
    simp only [SceneCk.load_checkpoint]
    rw [hfe, hse]

/-- C5 witness: saving the sample scene at `t = 3` and loading into the
identically configured fresh scene reproduces fields, solver buffers and
`t`. -/
theorem checkpoint_roundtrip_witness :
    (ckScene.dump_ckpt_to_numpy.map Prod.fst).Nodup ∧
    ckSceneFresh.load_checkpoint (ckScene.save_checkpoint 100) =
      { t := ckScene.t, fields := ckScene.fields, solvers := ckScene.solvers } :=
  ⟨by decide,
    (checkpoint_roundtrip ckScene ckSceneFresh 100 (by decide) (by decide)
      (by decide)).2.2.2.1⟩

/-- C2: `update()` is a no-op (no buffer emissions, no registry mutation)
when the stored last-synchronized index satisfies `last_t >= scene.t`;
otherwise it sets `last_t = scene.t` and performs the full resync pass, so
two consecutive `update()` calls with no intervening `step()` perform the
resync pass exactly once. -/
theorem render_update_staleness_idempotent (c : RasterizerContext)
    (fams : FamilyUpdates) (st : Int) :
    (st ≤ c.t → c.update fams st = c) ∧
    (c.t < st → (c.update fams st).t = st ∧
      ((c.update fams st).update fams st).trace = c.trace ++ resyncTrace) ∧
    (c.update fams st).update fams st = c.update fams st := by
  by_cases h : st ≤ c.t
  · have hid := update_of_synced c fams st h
    refine ⟨fun _ => hid, fun hlt => absurd h (not_le.mpr hlt), ?_⟩
    rw [hid, hid]
  · have hlt : c.t < st := not_le.mp h
    obtain ⟨h1, _, _, _, _, h6⟩ := update_resync_char c fams st hlt
    have hsecond : (c.update fams st).update fams st = c.update fams st :=
      update_of_synced _ fams st (le_of_eq h1.symm)
    exact ⟨fun hle => absurd hle h, fun _ => ⟨h1, by rw [hsecond, h6]⟩, hsecond⟩

/-- C2 witness: a fresh context (`last_t = -1`) at scene time 1 resyncs
once; the second call changes nothing. -/
theorem render_update_staleness_idempotent_witness :
    ((-1 : Int) < 1) ∧
    (freshCtx.update sampleFams 1).t = 1 ∧
    ((freshCtx.update sampleFams 1).update sampleFams 1).trace =
      freshCtx.trace ++ resyncTrace ∧
    (freshCtx.update sampleFams 1).update sampleFams 1 =
      freshCtx.update sampleFams 1 :=
  have h := render_update_staleness_idempotent freshCtx sampleFams 1
  ⟨by decide, (h.2.1 (by decide)).1, (h.2.1 (by decide)).2, h.2.2⟩

/-- C8: the resync pass runs its phases in fixed order — destroy previous
dynamic nodes (emptying the list), recompute visualization-only derived
state, invalidate cached bounds, then the per-family updates in the order
link-frames, tool, rigid, contact, avatar, MPM, SPH, PBD, FEM — all
accumulating into one buffer-update map. -/
theorem render_update_resync_order (c : RasterizerContext)
    (fams : FamilyUpdates) (st : Int) (h : c.t < st) :
    (c.update fams st).trace = c.trace ++ resyncTrace ∧
    (c.update fams st).dynamic_nodes =
      fams.link_frame.newDynamic ++ fams.tool.newDynamic ++ fams.rigid.newDynamic ++
      fams.contact.newDynamic ++ fams.avatar.newDynamic ++ fams.mpm.newDynamic ++
      fams.sph.newDynamic ++ fams.pbd.newDynamic ++ fams.fem.newDynamic ∧
    (c.update fams st).buffer =
      fams.link_frame.entries ++ fams.tool.entries ++ fams.rigid.entries ++
      fams.contact.entries ++ fams.avatar.entries ++ fams.mpm.entries ++
      fams.sph.entries ++ fams.pbd.entries ++ fams.fem.entries ∧
    (c.update fams st).bounds = none ∧
    (c.update fams st).visual_updates = c.visual_updates + 1 := by
  obtain ⟨_, h2, h3, h4, h5, h6⟩ := update_resync_char c fams st h
  exact ⟨h6, h3, h2, h4, h5⟩

/-- C8 witness: on the sample effects, the resync trace is the phase list
and the buffer holds exactly the rigid entry while MPM recreated its
dynamic node. -/
theorem render_update_resync_order_witness :
    ((-1 : Int) < 1) ∧
    (freshCtx.update sampleFams 1).trace = freshCtx.trace ++ resyncTrace ∧
    (freshCtx.update sampleFams 1).dynamic_nodes = [42] ∧
    (freshCtx.update sampleFams 1).buffer = [(7, [1, 2, 3])] :=
  have h := render_update_resync_order freshCtx sampleFams 1 (by decide)
  ⟨by decide, h.1, by rw [h.2.1]; decide, by rw [h.2.2.1]; decide⟩

/-- C9: adding an external debug node whose name is already registered
fails with `DuplicateNameError`; adding a node with a missing or empty
name fails with `ConfigError`; removing an unregistered name is a silent
no-op. -/
theorem external_node_registry_spec (c : RasterizerContext) (s s' : String)
    (n : NodeId) (hs : s ≠ "") (hdup : (alookup s c.external_nodes).isSome = true)
    (hmiss : alookup s' c.external_nodes = none) :
    (∃ m, c.add_external_node (some s) n = .error (.duplicateName m)) ∧
    (∃ m, c.add_external_node none n = .error (.config m)) ∧
    (∃ m, c.add_external_node (some "") n = .error (.config m)) ∧
    c.clear_external_node s' = c := by
  refine ⟨⟨"A node with this name already exists: " ++ s, ?_⟩, ⟨_, rfl⟩, ⟨_, rfl⟩, ?_⟩
  · simp [RasterizerContext.add_external_node, hs, hdup]
  · simp [RasterizerContext.clear_external_node, hmiss]

/-- C9 witness: in a registry holding only `a`, re-adding `a` collides,
nameless or empty-named nodes are rejected, and removing `b` is a no-op. -/
theorem external_node_registry_spec_witness :
    ((alookup "a" extCtx.external_nodes).isSome = true) ∧
    (∃ m, extCtx.add_external_node (some "a") 2 = .error (.duplicateName m)) ∧
    (∃ m, extCtx.add_external_node none 2 = .error (.config m)) ∧
    (∃ m, extCtx.add_external_node (some "") 2 = .error (.config m)) ∧
    extCtx.clear_external_node "b" = extCtx :=
  have h := external_node_registry_spec extCtx "a" "b" 2 (by decide) (by decide) (by decide)
  ⟨by decide, h.1, h.2.1, h.2.2.1, h.2.2.2⟩

/-- C10: in differentiable mode (`requires_grad`), `add_emitter` always
raises (and hence registers neither an emitter nor an entity — the
rejection happens before any mutation). -/
theorem add_emitter_requires_grad_rejected (s : SceneM) (m : MaterialM)
    (mp : Nat) (h : s.requires_grad = true) :
    ∃ e, s.add_emitter m mp = .error e := by
  by_cases hb : s.is_built
  · exact ⟨.invalidState "Scene is already built.", by simp [SceneM.add_emitter, hb]⟩
  · exact ⟨.genericErr "Emitter is not supported in differentiable mode.",
      by simp [SceneM.add_emitter, hb, h]⟩

/-- C10 witness: an unbuilt differentiable scene rejects `add_emitter`
even for a supported material. -/
theorem add_emitter_requires_grad_rejected_witness :
    ({ sampleScene with is_built := false, requires_grad := true } : SceneM).requires_grad = true ∧
    ∃ e, ({ sampleScene with is_built := false, requires_grad := true } : SceneM).add_emitter
      .mpmBase 100 = .error e :=
  ⟨rfl, add_emitter_requires_grad_rejected _ .mpmBase 100 rfl⟩

end Genesis
